import Mathlib

/-!
# NFC reader firmware (PN532 over I2C, RC522 over SPI)

A shallow embedding of the two sketches
`esp32code/nfc-reader-pn532/src/main.cpp` and `esp32code/nfc-reader-rc522/src/main.cpp`.

Every call the sketches make on the outside world (serial port, status LED, blocking
delay, reader driver) is recorded as an `Event`; `setup` and `loop` are functions from
what the reader driver answers to the list of events they perform, in program order.
Bytes (`uint8_t`, `byte`) are natural numbers below 256.

`loop` takes the UID as the bytes `uid[0], ..., uid[uidLength - 1]`; `loopOnArray` takes the
array and the length separately and has no result when the formatting loop reads past
the end of the array. The two agree whenever the length fits the array.
-/

namespace NfcReader

/-! ## Events -/

/-- Second argument of `pinMode`. -/
inductive PinMode where
  | INPUT
  | OUTPUT
  deriving DecidableEq, Repr

/-- Second argument of `digitalWrite`. -/
inductive Level where
  | LOW
  | HIGH
  deriving DecidableEq, Repr

/-- One call of a sketch on the serial port, the pins, the clock or the reader driver. -/
inductive Event where
  /-- Call `Serial.begin(baud)`. -/
  | serialBegin (baud : Nat)
  /-- Call `delay(ms)`. -/
  | delay (ms : Nat)
  /-- Call `Serial.print(s)`. -/
  | print (s : String)
  /-- Call `Serial.println(s)`. -/
  | println (s : String)
  /-- Call `Serial.println(value, base)`. -/
  | printlnNum (value base : Nat)
  /-- Call `pinMode(pin, mode)`. -/
  | pinMode (pin : Nat) (mode : PinMode)
  /-- Call `digitalWrite(pin, level)`. -/
  | digitalWrite (pin : Nat) (level : Level)
  /-- Call `nfc.begin()`. -/
  | nfcBegin
  /-- Call `nfc.getFirmwareVersion()`. -/
  | getFirmwareVersion
  /-- Call `nfc.SAMConfig()`. -/
  | SAMConfig
  /-- Call `nfc.readPassiveTargetID(PN532_MIFARE_ISO14443A, uid, &uidLength, timeout)`. -/
  | readPassiveTargetID (timeout : Nat)
  /-- Call `SPI.begin()`. -/
  | spiBegin
  /-- Call `mfrc522.PCD_Init()`. -/
  | PCD_Init
  /-- Call `mfrc522.PCD_ReadRegister(mfrc522.VersionReg)`. -/
  | PCD_ReadVersionReg
  /-- Call `mfrc522.PICC_IsNewCardPresent()`. -/
  | PICC_IsNewCardPresent
  /-- Call `mfrc522.PICC_ReadCardSerial()`. -/
  | PICC_ReadCardSerial
  /-- Call `mfrc522.PICC_HaltA()`. -/
  | PICC_HaltA
  /-- Call `mfrc522.PCD_StopCrypto1()`. -/
  | PCD_StopCrypto1
  deriving DecidableEq, Repr

/-- `#define LED_PIN 2` (both sketches). -/
def LED_PIN : Nat := 2

/-- `HEX`, the base argument of the Arduino number printers. -/
def HEX : Nat := 16

/-- What a function of a sketch does: it returns after a finite trace, or it performs
`trace` and is then caught in a `while (1)` whose body performs `body` on every round. -/
inductive Run where
  | returns (trace : List Event)
  | hangs (trace : List Event) (body : List Event)
  deriving DecidableEq, Repr

/-- Sequencing: what follows a call happens only if the call returns. -/
def Run.andThen : Run → List Event → Run
  | .returns t, rest => .returns (t ++ rest)
  | .hangs t body, _ => .hangs t body

/-- Whether the run comes back to its caller. -/
def Run.returned : Run → Bool
  | .returns _ => true
  | .hangs _ _ => false

/-- Arduino `String(unsigned char value, HEX)`: the digits of `value` in base 16, lower
case, most significant first, no leading zero (`"0"` for 0), as `utoa` writes them. -/
def stringHex (value : Nat) : String :=
  ⟨Nat.toDigits HEX value⟩

/-- Arduino `String::toUpperCase()`: every character replaced by its `toupper`. -/
def toUpperCase (s : String) : String :=
  ⟨s.data.map Char.toUpper⟩

/-- The body of
`for (i = 0; i < uidLength; i++) { if (uid[i] < 0x10) uidStr += "0"; uidStr += String(uid[i], HEX); }`
over the bytes `uid[0], ..., uid[uidLength - 1]`, from the current value of `uidStr`. -/
def hexLoop : List Nat → String → String
  | [], uidStr => uidStr
  | b :: rest, uidStr =>
    let uidStr := if b < 0x10 then uidStr ++ "0" else uidStr
    hexLoop rest (uidStr ++ stringHex b)

/-- The value of `uidStr` after `String uidStr = ""`, the loop and `uidStr.toUpperCase()`. -/
def uidToHex (uid : List Nat) : String :=
  toUpperCase (hexLoop uid "")

/-- The same loop on the array itself: `uid` is the whole array, the loop has `remaining`
rounds to go and is at index `i`. `uid[i]` past the end of the array is an out-of-bounds
read, which C++ leaves undefined: the result is `none`. -/
def hexLoopAt (uid : List Nat) : Nat → Nat → String → Option String
  | 0, _, uidStr => some uidStr
  | remaining + 1, i, uidStr =>
    match uid[i]? with
    | none => none
    | some b =>
      let uidStr := if b < 0x10 then uidStr ++ "0" else uidStr
      hexLoopAt uid remaining (i + 1) (uidStr ++ stringHex b)

/-- The value of `uidStr` after `String uidStr = ""`, the loop for `i` from 0 below
`uidLength` on the array `uid`, and `uidStr.toUpperCase()`; `none` when the loop reads
past the end of the array. -/
def uidToHexAt (uid : List Nat) (uidLength : Nat) : Option String :=
  (hexLoopAt uid uidLength 0 "").map toUpperCase

/-! ## PN532 (I2C) sketch -/

namespace PN532

/-- `void setup()` of the PN532 sketch; `versiondata` is what `nfc.getFirmwareVersion()`
returns. -/
def setup (versiondata : Nat) : Run :=
  let start : List Event :=
    [ .serialBegin 115200,
      .delay 1000,
      .println "NFC Reader ESP32 Starting...",
      .pinMode LED_PIN .OUTPUT,
      .digitalWrite LED_PIN .LOW,
      .nfcBegin,
      .getFirmwareVersion ]
  if versiondata = 0 then
    .hangs
      (start ++
        [ .println "ERROR: PN532 not found!",
          .println "Check I2C connections (SDA=21, SCL=22)" ])
      [ .digitalWrite LED_PIN .HIGH,
        .delay 200,
        .digitalWrite LED_PIN .LOW,
        .delay 200 ]
  else
    .returns
      (start ++
        [ .print "PN532 Firmware Version: 0x",
          .printlnNum versiondata HEX,
          .SAMConfig,
          .println "NFC Reader Ready. Waiting for cards...",
          .digitalWrite LED_PIN .HIGH,
          .delay 2000,
          .digitalWrite LED_PIN .LOW ])

/-- What one call of `nfc.readPassiveTargetID` answers: its return value and, in `uid`,
the bytes `uid[0], ..., uid[uidLength - 1]` it leaves in the buffer. -/
structure ReadResult where
  success : Bool
  uid : List Nat
  deriving DecidableEq, Repr

/-- `void loop()` of the PN532 sketch, one iteration. -/
def loop (r : ReadResult) : List Event :=
  [ .readPassiveTargetID 100 ] ++
  (if r.success then
    [ .digitalWrite LED_PIN .HIGH,
      .print "\x7b\"nfc_uid\":\"",
      .print (uidToHex r.uid),
      .println "\"\x7d",
      .delay 1000,
      .digitalWrite LED_PIN .LOW ]
  else []) ++
  [ .delay 100 ]

/-- One iteration of `void loop()` of the PN532 sketch on its array
`uint8_t uid[] = { 0, 0, 0, 0, 0, 0, 0 }`: `success` is the return value of
`nfc.readPassiveTargetID`, `uid` the array (7 elements) and `uidLength` the length as the
call leaves them. `none` when the formatting loop reads past the end of the array. -/
def loopOnArray (success : Bool) (uid : List Nat) (uidLength : Nat) : Option (List Event) :=
  if success then
    match uidToHexAt uid uidLength with
    | none => none
    | some uidStr =>
      some
        [ .readPassiveTargetID 100,
          .digitalWrite LED_PIN .HIGH,
          .print "\x7b\"nfc_uid\":\"",
          .print uidStr,
          .println "\"\x7d",
          .delay 1000,
          .digitalWrite LED_PIN .LOW,
          .delay 100 ]
  else
    some [ .readPassiveTargetID 100, .delay 100 ]

/-- Consecutive iterations of `loop`, one per answer of the reader. -/
def polls (reads : List ReadResult) : List Event :=
  reads.flatMap loop

/-- The Arduino main function, `setup(); for (;;) loop();`, as far as the given answers
of the reader reach. -/
def firmware (versiondata : Nat) (reads : List ReadResult) : Run :=
  (setup versiondata).andThen (polls reads)

end PN532

/-! ## RC522 (SPI) sketch -/

namespace RC522

/-- `void setup()` of the RC522 sketch; `version` is the byte read from `VersionReg`. -/
def setup (version : Nat) : Run :=
  let start : List Event :=
    [ .serialBegin 115200,
      .delay 1000,
      .println "NFC Reader ESP32 (RC522) Starting...",
      .pinMode LED_PIN .OUTPUT,
      .digitalWrite LED_PIN .LOW,
      .spiBegin,
      .PCD_Init,
      .PCD_ReadVersionReg ]
  if version = 0x00 ∨ version = 0xFF then
    .hangs
      (start ++
        [ .println "ERROR: RC522 not found!",
          .println "Check SPI connections",
          .println "RST=22, SS=5, MOSI=23, MISO=19, SCK=18" ])
      [ .digitalWrite LED_PIN .HIGH,
        .delay 200,
        .digitalWrite LED_PIN .LOW,
        .delay 200 ]
  else
    .returns
      (start ++
        [ .print "RC522 Version: 0x",
          .printlnNum version HEX,
          .println "NFC Reader Ready. Waiting for cards...",
          .digitalWrite LED_PIN .HIGH,
          .delay 2000,
          .digitalWrite LED_PIN .LOW ])

/-- What the reader answers in one iteration: the return values of
`PICC_IsNewCardPresent()` and of `PICC_ReadCardSerial()` (asked only when the first is
true), and the bytes `mfrc522.uid.uidByte[0], ..., [mfrc522.uid.size - 1]`. -/
structure CardAnswer where
  isNewCardPresent : Bool
  readCardSerial : Bool
  uid : List Nat
  deriving DecidableEq, Repr

/-- `void loop()` of the RC522 sketch, one iteration. -/
def loop (a : CardAnswer) : List Event :=
  if !a.isNewCardPresent then
    [ .PICC_IsNewCardPresent, .delay 100 ]
  else if !a.readCardSerial then
    [ .PICC_IsNewCardPresent, .PICC_ReadCardSerial, .delay 100 ]
  else
    [ .PICC_IsNewCardPresent,
      .PICC_ReadCardSerial,
      .digitalWrite LED_PIN .HIGH,
      .print "\x7b\"nfc_uid\":\"",
      .print (uidToHex a.uid),
      .println "\"\x7d",
      .PICC_HaltA,
      .PCD_StopCrypto1,
      .delay 1000,
      .digitalWrite LED_PIN .LOW ]

/-- One iteration of `void loop()` of the RC522 sketch on the array
`mfrc522.uid.uidByte` (declared `byte uidByte[10]` in the MFRC522 driver) and the length
`mfrc522.uid.size`. `none` when the formatting loop reads past the end of the array. -/
def loopOnArray (isNewCardPresent readCardSerial : Bool) (uidByte : List Nat) (size : Nat) :
    Option (List Event) :=
  if !isNewCardPresent then
    some [ .PICC_IsNewCardPresent, .delay 100 ]
  else if !readCardSerial then
    some [ .PICC_IsNewCardPresent, .PICC_ReadCardSerial, .delay 100 ]
  else
    match uidToHexAt uidByte size with
    | none => none
    | some uidStr =>
      some
        [ .PICC_IsNewCardPresent,
          .PICC_ReadCardSerial,
          .digitalWrite LED_PIN .HIGH,
          .print "\x7b\"nfc_uid\":\"",
          .print uidStr,
          .println "\"\x7d",
          .PICC_HaltA,
          .PCD_StopCrypto1,
          .delay 1000,
          .digitalWrite LED_PIN .LOW ]

/-- Consecutive iterations of `loop`, one per answer of the reader. -/
def polls (answers : List CardAnswer) : List Event :=
  answers.flatMap loop

/-- The Arduino main function, `setup(); for (;;) loop();`, as far as the given answers
of the reader reach. -/
def firmware (version : Nat) (answers : List CardAnswer) : Run :=
  (setup version).andThen (polls answers)

end RC522

/-! ## Observations on traces -/

/-- Arduino `Print::println` ends the line with carriage return and line feed. -/
def lineEnd : String := "\r\n"

/-- The characters an event writes to the serial port. `Print::println(n, base)` writes
the digits of `n` in upper case. -/
def Event.serialText : Event → String
  | .print s => s
  | .println s => s ++ lineEnd
  | .printlnNum value base => ⟨(Nat.toDigits base value).map Char.toUpper⟩ ++ lineEnd
  | _ => ""

/-- Everything a trace writes to the serial port, in order. -/
def serialOutput : List Event → String
  | [] => ""
  | e :: es => e.serialText ++ serialOutput es

/-- Calls that write to the serial port. -/
def Event.isSerial : Event → Bool
  | .print _ => true
  | .println _ => true
  | .printlnNum _ _ => true
  | _ => false

/-- Calls that complete a line on the serial port. -/
def Event.isLineEnd : Event → Bool
  | .println _ => true
  | .printlnNum _ _ => true
  | _ => false

/-- Calls that ask the reader for a tag. -/
def Event.isPoll : Event → Bool
  | .readPassiveTargetID _ => true
  | .PICC_IsNewCardPresent => true
  | .PICC_ReadCardSerial => true
  | _ => false

/-- Calls that end the session with a tag (RC522 only). -/
def Event.isSessionEnd : Event → Bool
  | .PICC_HaltA => true
  | .PCD_StopCrypto1 => true
  | _ => false

/-- Writes to the status LED. -/
def Event.isLedWrite : Event → Bool
  | .digitalWrite pin _ => pin == LED_PIN
  | _ => false

/-- Blocking delays. -/
def Event.isDelay : Event → Bool
  | .delay _ => true
  | _ => false

/-- Events before which the debounce hold must be over: a tag read or a serial write. -/
def Event.isPollOrSerial (e : Event) : Bool :=
  e.isPoll || e.isSerial

/-- Total time, in milliseconds, spent in `delay` by a trace. -/
def delaySum : List Event → Nat
  | [] => 0
  | .delay ms :: es => ms + delaySum es
  | _ :: es => delaySum es

/-- Level of the status LED after a trace, from its level before. -/
def ledAfter : Level → List Event → Level
  | led, [] => led
  | led, .digitalWrite pin level :: es => ledAfter (if pin = LED_PIN then level else led) es
  | led, _ :: es => ledAfter led es

/-- The events of a run before it returns or, if it hangs, before it enters its loop. -/
def Run.trace : Run → List Event
  | .returns t => t
  | .hangs t _ => t

/-- LED writes and delays: the events that make up the signal on the status LED. -/
def Event.isLedSignal (e : Event) : Bool :=
  e.isLedWrite || e.isDelay

/-- How much delay is still owed after an event, when every completed line must be
followed by `gap` milliseconds of delay and `need` was owed before the event. -/
def needNext (gap need : Nat) : Event → Nat
  | .delay ms => need - ms
  | .println _ => gap
  | .printlnNum _ _ => gap
  | _ => need

/-- The delay still owed after a trace. -/
def needAfter (gap : Nat) : Nat → List Event → Nat
  | need, [] => need
  | need, e :: es => needAfter gap (needNext gap need e) es

/-- Scans a trace and checks that no event selected by `stop` happens while delay is still
owed from the last completed line. -/
def holdOK (gap : Nat) (stop : Event → Bool) : Nat → List Event → Bool
  | _, [] => true
  | need, e :: es => (!stop e || need == 0) && holdOK gap stop (needNext gap need e) es

/-! ## Reference definitions for the hex format -/

/-- The upper-case hexadecimal digit of a value below 16. -/
def hexDigitUpper (d : Nat) : Char :=
  "0123456789ABCDEF".data.getD d '?'

/-- The two-digit upper-case hexadecimal numeral of a byte. -/
def byteHex (b : Nat) : List Char :=
  [hexDigitUpper (b / 16), hexDigitUpper (b % 16)]

/-- Value of an upper-case hexadecimal digit. -/
def hexValue (c : Char) : Option Nat :=
  if "0123456789ABCDEF".data.indexOf c < 16 then some ("0123456789ABCDEF".data.indexOf c)
  else none

/-- Reads a string two hexadecimal digits at a time, one byte per pair. -/
def parseHex : List Char → Option (List Nat)
  | [] => some []
  | [_] => none
  | hi :: lo :: rest =>
    match hexValue hi, hexValue lo, parseHex rest with
    | some h, some l, some bytes => some ((16 * h + l) :: bytes)
    | _, _, _ => none

/-! ## Lemmas on the hex formatter -/

theorem byteHex_of_lt (b : Nat) (h : b < 256) :
    ((if b < 0x10 then ['0'] else []) ++ Nat.toDigits HEX b).map Char.toUpper = byteHex b := by
  interval_cases b <;> rfl

theorem hexLoop_data (uid : List Nat) (acc : String) :
    (hexLoop uid acc).data =
      acc.data ++ uid.flatMap (fun b => (if b < 0x10 then ['0'] else []) ++ Nat.toDigits HEX b) := by
  induction uid generalizing acc with
  | nil => simp [hexLoop]
  | cons b rest ih =>
    simp only [hexLoop, ih, List.flatMap_cons]
    by_cases hb : b < 0x10 <;> simp [hb, stringHex, String.data_append]

theorem uidToHex_data (uid : List Nat) (h : ∀ b ∈ uid, b < 256) :
    (uidToHex uid).data = uid.flatMap byteHex := by
  induction uid with
  | nil => rfl
  | cons b rest ih =>
    have hb := byteHex_of_lt b (h b (List.mem_cons_self _ _))
    have ih := ih (fun x hx => h x (List.mem_cons_of_mem _ hx))
    simp only [uidToHex, toUpperCase, hexLoop_data, List.flatMap_cons, List.map_append] at ih ⊢
    simp only [List.map_append] at hb
    rw [← List.append_assoc, hb]
    simpa using ih

theorem hexDigitUpper_mem (d : Nat) (h : d < 16) :
    hexDigitUpper d ∈ "0123456789ABCDEF".data := by
  interval_cases d <;> decide

theorem hexValue_hexDigitUpper (d : Nat) (h : d < 16) : hexValue (hexDigitUpper d) = some d := by
  interval_cases d <;> rfl

theorem parseHex_flatMap (uid : List Nat) (h : ∀ b ∈ uid, b < 256) :
    parseHex (uid.flatMap byteHex) = some uid := by
  induction uid with
  | nil => rfl
  | cons b rest ih =>
    have hb : b < 256 := h b (List.mem_cons_self _ _)
    have ih := ih (fun x hx => h x (List.mem_cons_of_mem _ hx))
    have h1 : b / 16 < 16 := by omega
    have h2 : b % 16 < 16 := by omega
    have hc : (b :: rest).flatMap byteHex =
        hexDigitUpper (b / 16) :: hexDigitUpper (b % 16) :: rest.flatMap byteHex := by
      simp [List.flatMap_cons, byteHex]
    rw [hc]
    simp only [parseHex, hexValue_hexDigitUpper _ h1, hexValue_hexDigitUpper _ h2, ih]
    rw [Nat.div_add_mod b 16]


theorem flatMap_byteHex_length (uid : List Nat) : (uid.flatMap byteHex).length = 2 * uid.length := by
  induction uid with
  | nil => rfl
  | cons b rest ih => simp [List.flatMap_cons, byteHex, ih]; omega

theorem flatMap_byteHex_mem (uid : List Nat) (h : ∀ b ∈ uid, b < 256) :
    ∀ c ∈ uid.flatMap byteHex, c ∈ "0123456789ABCDEF".data := by
  intro c hc
  obtain ⟨b, hb, hcb⟩ := List.mem_flatMap.mp hc
  have hlt := h b hb
  simp only [byteHex, List.mem_cons, List.mem_singleton, List.not_mem_nil, or_false] at hcb
  rcases hcb with rfl | rfl
  · exact hexDigitUpper_mem _ (by omega)
  · exact hexDigitUpper_mem _ (by omega)

theorem flatMap_byteHex_get (uid : List Nat) (i b : Nat) (h : uid[i]? = some b) :
    (uid.flatMap byteHex)[2 * i]? = some (hexDigitUpper (b / 16)) ∧
    (uid.flatMap byteHex)[2 * i + 1]? = some (hexDigitUpper (b % 16)) := by
  induction uid generalizing i with
  | nil => simp at h
  | cons x rest ih =>
    have hc : (x :: rest).flatMap byteHex =
        hexDigitUpper (x / 16) :: hexDigitUpper (x % 16) :: rest.flatMap byteHex := by
      simp [List.flatMap_cons, byteHex]
    rw [hc]
    cases i with
    | zero =>
      simp only [List.getElem?_cons_zero, Option.some.injEq] at h
      subst h
      simp
    | succ j =>
      simp only [List.getElem?_cons_succ] at h
      have e1 : 2 * (j + 1) = 2 * j + 1 + 1 := by omega
      rw [e1]
      simp only [List.getElem?_cons_succ]
      exact ih j h

theorem uidToHex_injective (u v : List Nat) (hu : ∀ b ∈ u, b < 256) (hv : ∀ b ∈ v, b < 256)
    (h : uidToHex u = uidToHex v) : u = v := by
  have h1 := parseHex_flatMap u hu
  have h2 := parseHex_flatMap v hv
  rw [← uidToHex_data u hu, h, uidToHex_data v hv, h2] at h1
  exact (Option.some.inj h1).symm

theorem serialOutput_PN532_loop (u : List Nat) :
    serialOutput (PN532.loop ⟨true, u⟩) = "\x7b\"nfc_uid\":\"" ++ uidToHex u ++ "\"\x7d" ++ "\r\n" := by
  apply String.ext
  simp [PN532.loop, serialOutput, Event.serialText, lineEnd, String.data_append]

theorem serialOutput_RC522_loop (u : List Nat) :
    serialOutput (RC522.loop ⟨true, true, u⟩) =
      "\x7b\"nfc_uid\":\"" ++ uidToHex u ++ "\"\x7d" ++ "\r\n" := by
  apply String.ext
  simp [RC522.loop, serialOutput, Event.serialText, lineEnd, String.data_append]

theorem tagEventLine_injective (u v : List Nat) (hu : ∀ b ∈ u, b < 256) (hv : ∀ b ∈ v, b < 256)
    (h : "\x7b\"nfc_uid\":\"" ++ uidToHex u ++ "\"\x7d" ++ "\r\n" =
      "\x7b\"nfc_uid\":\"" ++ uidToHex v ++ "\"\x7d" ++ "\r\n") : u = v := by
  apply uidToHex_injective u v hu hv
  have hd := congrArg String.data h
  simp only [String.data_append, List.append_assoc] at hd
  have h3 := List.append_cancel_left hd
  exact String.ext (List.append_cancel_right h3)


/-! ## Lemmas on the formatter on the array -/

theorem hexLoopAt_of_le (uid : List Nat) (n i : Nat) (acc : String) (h : i + n ≤ uid.length) :
    hexLoopAt uid n i acc = some (hexLoop ((uid.drop i).take n) acc) := by
  induction n generalizing i acc with
  | zero => simp [hexLoopAt, hexLoop]
  | succ n ih =>
    have hi : i < uid.length := by omega
    rw [hexLoopAt, List.getElem?_eq_getElem hi, List.drop_eq_getElem_cons hi,
      List.take_succ_cons, hexLoop]
    exact ih (i + 1) _ (by omega)

theorem uidToHexAt_of_le (uid : List Nat) (n : Nat) (h : n ≤ uid.length) :
    uidToHexAt uid n = some (uidToHex (uid.take n)) := by
  rw [uidToHexAt, hexLoopAt_of_le uid n 0 "" (by omega)]
  rfl

theorem PN532_loopOnArray_of_le (uid : List Nat) (n : Nat) (h : n ≤ uid.length) :
    PN532.loopOnArray true uid n = some (PN532.loop ⟨true, uid.take n⟩) := by
  simp [PN532.loopOnArray, uidToHexAt_of_le uid n h, PN532.loop]

theorem RC522_loopOnArray_of_le (uidByte : List Nat) (n : Nat) (h : n ≤ uidByte.length) :
    RC522.loopOnArray true true uidByte n = some (RC522.loop ⟨true, true, uidByte.take n⟩) := by
  simp [RC522.loopOnArray, uidToHexAt_of_le uidByte n h, RC522.loop]

theorem take_byte_bound (uid : List Nat) (n : Nat) (h : ∀ b ∈ uid, b < 256) :
    ∀ b ∈ uid.take n, b < 256 :=
  fun b hb => h b (List.mem_of_mem_take hb)

theorem take_eq_take_of_le (u v : List Nat) (n m : Nat) (hn : n ≤ u.length) (hm : m ≤ v.length)
    (h : u.take n = v.take m) : n = m := by
  have hl := congrArg List.length h
  rw [List.length_take, List.length_take] at hl
  omega

/-! ## Lemmas on traces -/

theorem serialOutput_append (a b : List Event) :
    serialOutput (a ++ b) = serialOutput a ++ serialOutput b := by
  induction a with
  | nil => apply String.ext; simp [serialOutput, String.data_append]
  | cons e es ih =>
    apply String.ext
    simp [serialOutput, ih, String.data_append]

theorem ledAfter_append (led : Level) (a b : List Event) :
    ledAfter led (a ++ b) = ledAfter (ledAfter led a) b := by
  induction a generalizing led with
  | nil => rfl
  | cons e es ih => cases e <;> simp [ledAfter, ih]

theorem delaySum_append (a b : List Event) : delaySum (a ++ b) = delaySum a + delaySum b := by
  induction a with
  | nil => simp [delaySum]
  | cons e es ih => cases e <;> simp [delaySum, ih]; omega

theorem needAfter_append (gap need : Nat) (a b : List Event) :
    needAfter gap need (a ++ b) = needAfter gap (needAfter gap need a) b := by
  induction a generalizing need with
  | nil => rfl
  | cons e es ih => simp [needAfter, ih]

theorem holdOK_append (gap : Nat) (stop : Event → Bool) (need : Nat) (a b : List Event) :
    holdOK gap stop need (a ++ b) =
      (holdOK gap stop need a && holdOK gap stop (needAfter gap need a) b) := by
  induction a generalizing need with
  | nil => simp [holdOK, needAfter]
  | cons e es ih => simp [holdOK, needAfter, ih, Bool.and_assoc]

theorem needNext_le (gap need : Nat) (e : Event) (h : need ≤ gap) : needNext gap need e ≤ gap := by
  cases e <;> simp [needNext] <;> omega

theorem needNext_lineEnd (gap need : Nat) (e : Event) (h : e.isLineEnd = true) :
    needNext gap need e = gap := by
  cases e <;> simp_all [needNext, Event.isLineEnd]

theorem le_delaySum_of_holdOK (gap : Nat) (stop : Event → Bool) (need : Nat) (mid : List Event)
    (e2 : Event) (post : List Event) (hle : need ≤ gap)
    (h : holdOK gap stop need (mid ++ e2 :: post) = true) (h2 : stop e2 = true) :
    need ≤ delaySum mid := by
  induction mid generalizing need with
  | nil =>
    simp [holdOK, h2] at h
    omega
  | cons e es ih =>
    simp only [List.cons_append, holdOK, Bool.and_eq_true] at h
    have hrec := ih (needNext gap need e) (needNext_le gap need e hle) h.2
    cases e <;> simp only [needNext, delaySum] at hrec ⊢ <;> omega

theorem gap_le_delaySum_of_holdOK (gap : Nat) (stop : Event → Bool) (need : Nat)
    (pre : List Event) (e1 : Event) (mid : List Event) (e2 : Event) (post : List Event)
    (h : holdOK gap stop need (pre ++ e1 :: (mid ++ e2 :: post)) = true)
    (h1 : e1.isLineEnd = true) (h2 : stop e2 = true) : gap ≤ delaySum mid := by
  induction pre generalizing need with
  | nil =>
    simp only [List.nil_append, holdOK, Bool.and_eq_true] at h
    rw [needNext_lineEnd gap need e1 h1] at h
    exact le_delaySum_of_holdOK gap stop gap mid e2 post (Nat.le_refl _) h.2 h2
  | cons e es ih =>
    simp only [List.cons_append, holdOK, Bool.and_eq_true] at h
    exact ih _ h.2

theorem holdOK_flatMap {α : Type} (gap : Nat) (stop : Event → Bool) (f : α → List Event)
    (hf : ∀ a, holdOK gap stop 0 (f a) = true ∧ needAfter gap 0 (f a) = 0) (l : List α) :
    holdOK gap stop 0 (l.flatMap f) = true ∧ needAfter gap 0 (l.flatMap f) = 0 := by
  induction l with
  | nil => exact ⟨rfl, rfl⟩
  | cons a rest ih =>
    rw [List.flatMap_cons, holdOK_append, needAfter_append, (hf a).1, (hf a).2]
    exact ⟨by simpa using ih.1, ih.2⟩

theorem PN532_loop_hold (r : PN532.ReadResult) :
    holdOK 1100 Event.isPollOrSerial 0 (PN532.loop r) = true ∧
      needAfter 1100 0 (PN532.loop r) = 0 := by
  rcases r with ⟨_ | _, u⟩ <;>
    simp [PN532.loop, holdOK, needAfter, needNext, Event.isPollOrSerial, Event.isPoll,
      Event.isSerial]

theorem RC522_loop_hold (a : RC522.CardAnswer) :
    holdOK 1000 Event.isPollOrSerial 0 (RC522.loop a) = true ∧
      needAfter 1000 0 (RC522.loop a) = 0 := by
  rcases a with ⟨_ | _, _ | _, u⟩ <;>
    simp [RC522.loop, holdOK, needAfter, needNext, Event.isPollOrSerial, Event.isPoll,
      Event.isSerial]

theorem PN532_gap (reads : List PN532.ReadResult)
    (pre : List Event) (e1 : Event) (mid : List Event) (e2 : Event) (post : List Event)
    (h : PN532.polls reads = pre ++ e1 :: (mid ++ e2 :: post))
    (h1 : e1.isLineEnd = true) (h2 : e2.isPollOrSerial = true) : 1100 ≤ delaySum mid := by
  have hok := (holdOK_flatMap 1100 Event.isPollOrSerial PN532.loop PN532_loop_hold reads).1
  rw [← PN532.polls, h] at hok
  exact gap_le_delaySum_of_holdOK _ _ _ pre e1 mid e2 post hok h1 h2

theorem RC522_gap (answers : List RC522.CardAnswer)
    (pre : List Event) (e1 : Event) (mid : List Event) (e2 : Event) (post : List Event)
    (h : RC522.polls answers = pre ++ e1 :: (mid ++ e2 :: post))
    (h1 : e1.isLineEnd = true) (h2 : e2.isPollOrSerial = true) : 1000 ≤ delaySum mid := by
  have hok := (holdOK_flatMap 1000 Event.isPollOrSerial RC522.loop RC522_loop_hold answers).1
  rw [← RC522.polls, h] at hok
  exact gap_le_delaySum_of_holdOK _ _ _ pre e1 mid e2 post hok h1 h2

theorem PN532_led_window (r : PN532.ReadResult) (pre : List Event) (e : Event)
    (post : List Event) (h : PN532.loop r = pre ++ e :: post) :
    ledAfter .LOW pre = .HIGH ↔
      (e.isSerial = true ∨ e = .delay 1000 ∨ e = .digitalWrite LED_PIN .LOW) := by
  rcases r with ⟨_ | _, u⟩ <;>
    simp only [PN532.loop, Bool.false_eq_true, if_false, if_true, List.append_nil,
      List.cons_append, List.nil_append, List.cons_eq_append_iff, List.nil_eq_append_iff] at h <;>
    casesm* _ ∨ _, ∃ _, _, _ ∧ _ <;> subst_vars <;>
    simp_all [ledAfter, Event.isSerial, LED_PIN]

theorem RC522_led_window (a : RC522.CardAnswer) (pre : List Event) (e : Event)
    (post : List Event) (h : RC522.loop a = pre ++ e :: post) :
    ledAfter .LOW pre = .HIGH ↔
      (e.isSerial = true ∨ e.isSessionEnd = true ∨ e = .delay 1000 ∨
        e = .digitalWrite LED_PIN .LOW) := by
  rcases a with ⟨_ | _, _ | _, u⟩ <;>
    simp only [RC522.loop, Bool.not_true, Bool.not_false, Bool.false_eq_true, if_false, if_true,
      List.cons_eq_append_iff, List.nil_eq_append_iff] at h <;>
    casesm* _ ∨ _, ∃ _, _, _ ∧ _ <;> subst_vars <;>
    simp_all [ledAfter, Event.isSerial, Event.isSessionEnd, LED_PIN]

theorem ledAfter_flatMap {α : Type} (f : α → List Event)
    (hf : ∀ a, ledAfter .LOW (f a) = .LOW) (l : List α) :
    ledAfter .LOW (l.flatMap f) = .LOW := by
  induction l with
  | nil => rfl
  | cons a rest ih => rw [List.flatMap_cons, ledAfter_append, hf a, ih]

theorem PN532_loop_led (r : PN532.ReadResult) : ledAfter .LOW (PN532.loop r) = .LOW := by
  rcases r with ⟨_ | _, u⟩ <;> rfl

theorem RC522_loop_led (a : RC522.CardAnswer) : ledAfter .LOW (RC522.loop a) = .LOW := by
  rcases a with ⟨_ | _, _ | _, u⟩ <;> rfl

/-! ## Lemmas on `setup` and on runs -/

theorem PN532_setup_of_ne_zero (versiondata : Nat) (hv : versiondata ≠ 0) :
    PN532.setup versiondata = .returns
      [ .serialBegin 115200, .delay 1000, .println "NFC Reader ESP32 Starting...",
        .pinMode LED_PIN .OUTPUT, .digitalWrite LED_PIN .LOW, .nfcBegin, .getFirmwareVersion,
        .print "PN532 Firmware Version: 0x", .printlnNum versiondata HEX, .SAMConfig,
        .println "NFC Reader Ready. Waiting for cards...",
        .digitalWrite LED_PIN .HIGH, .delay 2000, .digitalWrite LED_PIN .LOW ] := by
  simp [PN532.setup, hv]

theorem RC522_setup_of_ne_sentinel (version : Nat) (hv : version ≠ 0x00 ∧ version ≠ 0xFF) :
    RC522.setup version = .returns
      [ .serialBegin 115200, .delay 1000, .println "NFC Reader ESP32 (RC522) Starting...",
        .pinMode LED_PIN .OUTPUT, .digitalWrite LED_PIN .LOW, .spiBegin, .PCD_Init,
        .PCD_ReadVersionReg,
        .print "RC522 Version: 0x", .printlnNum version HEX,
        .println "NFC Reader Ready. Waiting for cards...",
        .digitalWrite LED_PIN .HIGH, .delay 2000, .digitalWrite LED_PIN .LOW ] := by
  simp [RC522.setup, hv.1, hv.2]


/-! ## The hex formatter: format, example and losslessness -/

/-- C1: for every UID byte sequence (bytes below 256; any length, so in particular 4 to
7), the formatter of `loop()` yields exactly `2 * n` characters, each one of
`0123456789ABCDEF`; characters `2i` and `2i+1` are the upper-case hex digits of the high
and low nibble of byte `i`, so the string is the concatenation of the zero-padded
two-digit numerals with no separators; and `[0x00, 0x0A, 0xFF]` gives `"000AFF"`. -/
theorem uidToHex_two_upper_hex_digits_per_byte (uid : List Nat) (hbyte : ∀ b ∈ uid, b < 256) :
    (uidToHex uid).length = 2 * uid.length ∧
    (∀ c ∈ (uidToHex uid).data, c ∈ "0123456789ABCDEF".data) ∧
    (∀ i b, uid[i]? = some b →
      (uidToHex uid).data[2 * i]? = some (hexDigitUpper (b / 16)) ∧
      (uidToHex uid).data[2 * i + 1]? = some (hexDigitUpper (b % 16))) ∧
    (uidToHex uid).data = uid.flatMap byteHex ∧
    uidToHex [0x00, 0x0A, 0xFF] = "000AFF" := by
  have hd := uidToHex_data uid hbyte
  refine ⟨?_, ?_, ?_, hd, by decide⟩
  · rw [String.length, hd]; exact flatMap_byteHex_length uid
  · rw [hd]; exact flatMap_byteHex_mem uid hbyte
  · intro i b h; rw [hd]; exact flatMap_byteHex_get uid i b h

/-- Witness for C1 at the 7-byte UID `04 A1 0B FF 00 7C 10`. -/
theorem uidToHex_two_upper_hex_digits_per_byte_witness :
    (∀ b ∈ [0x04, 0xA1, 0x0B, 0xFF, 0x00, 0x7C, 0x10], b < 256) ∧
    uidToHex [0x04, 0xA1, 0x0B, 0xFF, 0x00, 0x7C, 0x10] = "04A10BFF007C10" ∧
    (uidToHex [0x04, 0xA1, 0x0B, 0xFF, 0x00, 0x7C, 0x10]).length = 2 * 7 ∧
    (uidToHex [0x04, 0xA1, 0x0B, 0xFF, 0x00, 0x7C, 0x10]).data =
      [0x04, 0xA1, 0x0B, 0xFF, 0x00, 0x7C, 0x10].flatMap byteHex :=
  ⟨by decide, by decide,
    (uidToHex_two_upper_hex_digits_per_byte [0x04, 0xA1, 0x0B, 0xFF, 0x00, 0x7C, 0x10]
      (by decide)).1,
    (uidToHex_two_upper_hex_digits_per_byte [0x04, 0xA1, 0x0B, 0xFF, 0x00, 0x7C, 0x10]
      (by decide)).2.2.2.1⟩

/-- C2: in an iteration of either sketch whose tag read succeeds with UID `u`, the serial
port receives exactly the opening literal of the tag-event object, the hex string of `u`
and the closing literal, followed by the line terminator of `println`, and nothing else;
this text is written by exactly three serial calls; the line itself holds no carriage
return or line feed; and for `DE AD BE EF` the line is the `nfc_uid` object with value
`DEADBEEF`. -/
theorem loop_emits_exactly_the_tag_line (u : List Nat) (hbyte : ∀ b ∈ u, b < 256) :
    serialOutput (PN532.loop ⟨true, u⟩) =
      "\x7b\"nfc_uid\":\"" ++ uidToHex u ++ "\"\x7d" ++ "\r\n" ∧
    serialOutput (RC522.loop ⟨true, true, u⟩) =
      "\x7b\"nfc_uid\":\"" ++ uidToHex u ++ "\"\x7d" ++ "\r\n" ∧
    (PN532.loop ⟨true, u⟩).filter Event.isSerial =
      [.print "\x7b\"nfc_uid\":\"", .print (uidToHex u), .println "\"\x7d"] ∧
    (RC522.loop ⟨true, true, u⟩).filter Event.isSerial =
      [.print "\x7b\"nfc_uid\":\"", .print (uidToHex u), .println "\"\x7d"] ∧
    (∀ c ∈ ("\x7b\"nfc_uid\":\"" ++ uidToHex u ++ "\"\x7d").data, c ≠ '\n' ∧ c ≠ '\r') ∧
    serialOutput (PN532.loop ⟨true, [0xDE, 0xAD, 0xBE, 0xEF]⟩) =
      "\x7b\"nfc_uid\":\"DEADBEEF\"\x7d" ++ "\r\n" ∧
    serialOutput (RC522.loop ⟨true, true, [0xDE, 0xAD, 0xBE, 0xEF]⟩) =
      "\x7b\"nfc_uid\":\"DEADBEEF\"\x7d" ++ "\r\n" := by
  refine ⟨serialOutput_PN532_loop u, serialOutput_RC522_loop u, ?_, ?_, ?_, by decide, by decide⟩
  · simp [PN532.loop, Event.isSerial]
  · simp [RC522.loop, Event.isSerial]
  · intro c hc
    simp only [String.data_append, List.mem_append] at hc
    rcases hc with (hc | hc) | hc
    · revert c; decide
    · rw [uidToHex_data u hbyte] at hc
      have hdigit : ∀ d ∈ "0123456789ABCDEF".data, d ≠ '\n' ∧ d ≠ '\r' := by decide
      exact hdigit c (flatMap_byteHex_mem u hbyte c hc)
    · revert c; decide

/-- Witness for C2 at the UID `DE AD BE EF`. -/
theorem loop_emits_exactly_the_tag_line_witness :
    (∀ b ∈ [0xDE, 0xAD, 0xBE, 0xEF], b < 256) ∧
    serialOutput (PN532.loop ⟨true, [0xDE, 0xAD, 0xBE, 0xEF]⟩) =
      "\x7b\"nfc_uid\":\"" ++ uidToHex [0xDE, 0xAD, 0xBE, 0xEF] ++ "\"\x7d" ++ "\r\n" ∧
    serialOutput (RC522.loop ⟨true, true, [0xDE, 0xAD, 0xBE, 0xEF]⟩) =
      "\x7b\"nfc_uid\":\"" ++ uidToHex [0xDE, 0xAD, 0xBE, 0xEF] ++ "\"\x7d" ++ "\r\n" :=
  ⟨by decide,
    (loop_emits_exactly_the_tag_line [0xDE, 0xAD, 0xBE, 0xEF] (by decide)).1,
    (loop_emits_exactly_the_tag_line [0xDE, 0xAD, 0xBE, 0xEF] (by decide)).2.1⟩

/-! ## Startup -/

/-- C4: when the identity query returns a non-sentinel value, `setup()` returns; from its
first LED write (LED off) on, its LED writes and delays are exactly LED on, one delay of
2000 ms, LED off; in the PN532 sketch these come after the `SAMConfig` call, in the RC522
sketch nothing but serial prints, LED writes and the delay follows the version read;
`setup()` makes no tag read, and every iteration of `loop()` runs after it. -/
theorem setup_ready_signal (versiondata version : Nat) (hv : versiondata ≠ 0)
    (hr : version ≠ 0x00 ∧ version ≠ 0xFF)
    (reads : List PN532.ReadResult) (answers : List RC522.CardAnswer) :
    ((PN532.setup versiondata).returned = true ∧
      (((PN532.setup versiondata).trace.dropWhile (fun e => !e.isLedWrite)).filter
          Event.isLedSignal =
        [.digitalWrite LED_PIN .LOW, .digitalWrite LED_PIN .HIGH, .delay 2000,
          .digitalWrite LED_PIN .LOW]) ∧
      (((PN532.setup versiondata).trace.dropWhile (fun e => e != .SAMConfig)).filter
          Event.isLedSignal =
        [.digitalWrite LED_PIN .HIGH, .delay 2000, .digitalWrite LED_PIN .LOW]) ∧
      (PN532.setup versiondata).trace.filter Event.isPoll = [] ∧
      PN532.firmware versiondata reads =
        .returns ((PN532.setup versiondata).trace ++ PN532.polls reads)) ∧
    ((RC522.setup version).returned = true ∧
      (((RC522.setup version).trace.dropWhile (fun e => !e.isLedWrite)).filter
          Event.isLedSignal =
        [.digitalWrite LED_PIN .LOW, .digitalWrite LED_PIN .HIGH, .delay 2000,
          .digitalWrite LED_PIN .LOW]) ∧
      (((RC522.setup version).trace.dropWhile (fun e => e != .PCD_ReadVersionReg)).tail.all
          (fun e => e.isSerial || e.isLedSignal) = true) ∧
      (RC522.setup version).trace.filter Event.isPoll = [] ∧
      RC522.firmware version answers =
        .returns ((RC522.setup version).trace ++ RC522.polls answers)) := by
  constructor
  · rw [PN532.firmware, PN532_setup_of_ne_zero versiondata hv]
    exact ⟨rfl, rfl, rfl, rfl, rfl⟩
  · rw [RC522.firmware, RC522_setup_of_ne_sentinel version hr]
    exact ⟨rfl, rfl, rfl, rfl, rfl⟩

/-- Witness for C4: PN532 firmware word 0x32010607, RC522 version byte 0x92. -/
theorem setup_ready_signal_witness :
    ((0x32010607 : Nat) ≠ 0 ∧ ((0x92 : Nat) ≠ 0x00 ∧ (0x92 : Nat) ≠ 0xFF)) ∧
    (PN532.setup 0x32010607).returned = true ∧
    (RC522.setup 0x92).returned = true ∧
    (PN532.setup 0x32010607).trace.filter Event.isLedSignal =
      [.delay 1000, .digitalWrite LED_PIN .LOW, .digitalWrite LED_PIN .HIGH, .delay 2000,
        .digitalWrite LED_PIN .LOW] :=
  ⟨by decide,
    (setup_ready_signal 0x32010607 0x92 (by decide) (by decide) [] []).1.1,
    (setup_ready_signal 0x32010607 0x92 (by decide) (by decide) [] []).2.1,
    by decide⟩

/-! ## The poll loop -/

/-- C5: in both sketches, over any number of iterations and whatever the reader answers,
between the `println` that completes a tag-event line and any later tag read or serial
write (so also the next tag-event line) the executed delays sum to at least 1000 ms. -/
theorem debounce_hold_after_emission :
    (∀ (reads : List PN532.ReadResult) (pre : List Event) (e1 : Event) (mid : List Event)
        (e2 : Event) (post : List Event),
      PN532.polls reads = pre ++ e1 :: (mid ++ e2 :: post) →
      e1.isLineEnd = true → e2.isPollOrSerial = true → 1000 ≤ delaySum mid) ∧
    (∀ (answers : List RC522.CardAnswer) (pre : List Event) (e1 : Event) (mid : List Event)
        (e2 : Event) (post : List Event),
      RC522.polls answers = pre ++ e1 :: (mid ++ e2 :: post) →
      e1.isLineEnd = true → e2.isPollOrSerial = true → 1000 ≤ delaySum mid) := by
  constructor
  · intro reads pre e1 mid e2 post h h1 h2
    exact Nat.le_trans (by decide) (PN532_gap reads pre e1 mid e2 post h h1 h2)
  · intro answers pre e1 mid e2 post h h1 h2
    exact RC522_gap answers pre e1 mid e2 post h h1 h2

/-- Witness for C5: the RC522 sketch with the tag `DE AD BE EF` reported present on two
consecutive polls; the events between the first line and the next tag read. -/
theorem debounce_hold_after_emission_witness :
    1000 ≤ delaySum
      [.PICC_HaltA, .PCD_StopCrypto1, .delay 1000, .digitalWrite LED_PIN .LOW] :=
  debounce_hold_after_emission.2
    [⟨true, true, [0xDE, 0xAD, 0xBE, 0xEF]⟩, ⟨true, true, [0xDE, 0xAD, 0xBE, 0xEF]⟩]
    [.PICC_IsNewCardPresent, .PICC_ReadCardSerial, .digitalWrite LED_PIN .HIGH,
      .print "\x7b\"nfc_uid\":\"", .print "DEADBEEF"]
    (.println "\"\x7d")
    [.PICC_HaltA, .PCD_StopCrypto1, .delay 1000, .digitalWrite LED_PIN .LOW]
    .PICC_IsNewCardPresent
    [.PICC_ReadCardSerial, .digitalWrite LED_PIN .HIGH,
      .print "\x7b\"nfc_uid\":\"", .print "DEADBEEF", .println "\"\x7d",
      .PICC_HaltA, .PCD_StopCrypto1, .delay 1000, .digitalWrite LED_PIN .LOW]
    (by decide) (by decide) (by decide)

/-- C6, refuted as stated: in the RC522 sketch, with the tag `DE AD BE EF` reported
present on two consecutive polls, the delays executed between the two tag-event lines
(from the `println` completing the first to the first `print` of the second) sum to
1000 ms, which is less than 1100 ms. -/
theorem RC522_emission_gap_is_1000 :
    RC522.polls
        [⟨true, true, [0xDE, 0xAD, 0xBE, 0xEF]⟩, ⟨true, true, [0xDE, 0xAD, 0xBE, 0xEF]⟩] =
      [.PICC_IsNewCardPresent, .PICC_ReadCardSerial, .digitalWrite LED_PIN .HIGH,
          .print "\x7b\"nfc_uid\":\"", .print "DEADBEEF"] ++
        .println "\"\x7d" ::
          ([.PICC_HaltA, .PCD_StopCrypto1, .delay 1000, .digitalWrite LED_PIN .LOW,
              .PICC_IsNewCardPresent, .PICC_ReadCardSerial, .digitalWrite LED_PIN .HIGH] ++
            .print "\x7b\"nfc_uid\":\"" ::
              [.print "DEADBEEF", .println "\"\x7d", .PICC_HaltA, .PCD_StopCrypto1,
                .delay 1000, .digitalWrite LED_PIN .LOW]) ∧
    delaySum
        [.PICC_HaltA, .PCD_StopCrypto1, .delay 1000, .digitalWrite LED_PIN .LOW,
          .PICC_IsNewCardPresent, .PICC_ReadCardSerial, .digitalWrite LED_PIN .HIGH] = 1000 ∧
    ¬ (∀ (answers : List RC522.CardAnswer) (pre : List Event) (e1 : Event)
        (mid : List Event) (e2 : Event) (post : List Event),
      RC522.polls answers = pre ++ e1 :: (mid ++ e2 :: post) →
      e1.isLineEnd = true → e2.isSerial = true → 1100 ≤ delaySum mid) := by
  refine ⟨by decide, by decide, ?_⟩
  intro h
  have h1100 := h
    [⟨true, true, [0xDE, 0xAD, 0xBE, 0xEF]⟩, ⟨true, true, [0xDE, 0xAD, 0xBE, 0xEF]⟩]
    [.PICC_IsNewCardPresent, .PICC_ReadCardSerial, .digitalWrite LED_PIN .HIGH,
      .print "\x7b\"nfc_uid\":\"", .print "DEADBEEF"]
    (.println "\"\x7d")
    [.PICC_HaltA, .PCD_StopCrypto1, .delay 1000, .digitalWrite LED_PIN .LOW,
      .PICC_IsNewCardPresent, .PICC_ReadCardSerial, .digitalWrite LED_PIN .HIGH]
    (.print "\x7b\"nfc_uid\":\"")
    [.print "DEADBEEF", .println "\"\x7d", .PICC_HaltA, .PCD_StopCrypto1,
      .delay 1000, .digitalWrite LED_PIN .LOW]
    (by decide) (by decide) (by decide)
  revert h1100
  decide

/-- C6, amended: between the `println` that completes a tag-event line and any later
serial write, the executed delays sum to at least 1100 ms in the PN532 sketch (the
1000 ms hold and the 100 ms delay that ends every iteration) and to at least 1000 ms in the
RC522 sketch (the hold alone: its successful iteration ends without the 100 ms delay). -/
theorem emission_gap_per_variant :
    (∀ (reads : List PN532.ReadResult) (pre : List Event) (e1 : Event) (mid : List Event)
        (e2 : Event) (post : List Event),
      PN532.polls reads = pre ++ e1 :: (mid ++ e2 :: post) →
      e1.isLineEnd = true → e2.isSerial = true → 1100 ≤ delaySum mid) ∧
    (∀ (answers : List RC522.CardAnswer) (pre : List Event) (e1 : Event) (mid : List Event)
        (e2 : Event) (post : List Event),
      RC522.polls answers = pre ++ e1 :: (mid ++ e2 :: post) →
      e1.isLineEnd = true → e2.isSerial = true → 1000 ≤ delaySum mid) := by
  constructor
  · intro reads pre e1 mid e2 post h h1 h2
    exact PN532_gap reads pre e1 mid e2 post h h1 (by simp [Event.isPollOrSerial, h2])
  · intro answers pre e1 mid e2 post h h1 h2
    exact RC522_gap answers pre e1 mid e2 post h h1 (by simp [Event.isPollOrSerial, h2])

/-- Witness for the amended C6: the PN532 sketch with the tag `DE AD BE EF` read on two
consecutive polls; the events between the two tag-event lines. -/
theorem emission_gap_per_variant_witness :
    1100 ≤ delaySum
      [.delay 1000, .digitalWrite LED_PIN .LOW, .delay 100, .readPassiveTargetID 100,
        .digitalWrite LED_PIN .HIGH] :=
  emission_gap_per_variant.1
    [⟨true, [0xDE, 0xAD, 0xBE, 0xEF]⟩, ⟨true, [0xDE, 0xAD, 0xBE, 0xEF]⟩]
    [.readPassiveTargetID 100, .digitalWrite LED_PIN .HIGH,
      .print "\x7b\"nfc_uid\":\"", .print "DEADBEEF"]
    (.println "\"\x7d")
    [.delay 1000, .digitalWrite LED_PIN .LOW, .delay 100, .readPassiveTargetID 100,
      .digitalWrite LED_PIN .HIGH]
    (.print "\x7b\"nfc_uid\":\"")
    [.print "DEADBEEF", .println "\"\x7d", .delay 1000, .digitalWrite LED_PIN .LOW,
      .delay 100]
    (by decide) (by decide) (by decide)
theorem PN532_polls_cons (r : PN532.ReadResult) (rest : List PN532.ReadResult) :
    PN532.polls (r :: rest) = PN532.loop r ++ PN532.polls rest := by
  simp [PN532.polls, List.flatMap_cons]

theorem RC522_polls_cons (a : RC522.CardAnswer) (rest : List RC522.CardAnswer) :
    RC522.polls (a :: rest) = RC522.loop a ++ RC522.polls rest := by
  simp [RC522.polls, List.flatMap_cons]

/-- C7: an iteration in which no tag is read performs exactly the poll call or calls and
one delay of 100 ms: no serial write, no LED write, no session-termination call; hence
over any number of such iterations nothing is written to the serial port, and every one
of them runs to its end (one 100 ms delay each). -/
theorem loop_without_tag_is_silent :
    (∀ r : PN532.ReadResult, r.success = false →
      PN532.loop r = [.readPassiveTargetID 100, .delay 100]) ∧
    (∀ a : RC522.CardAnswer, a.isNewCardPresent = false →
      RC522.loop a = [.PICC_IsNewCardPresent, .delay 100]) ∧
    (∀ a : RC522.CardAnswer, a.isNewCardPresent = true → a.readCardSerial = false →
      RC522.loop a = [.PICC_IsNewCardPresent, .PICC_ReadCardSerial, .delay 100]) ∧
    (∀ reads : List PN532.ReadResult, (∀ r ∈ reads, r.success = false) →
      serialOutput (PN532.polls reads) = "" ∧
      (PN532.polls reads).filter
        (fun e => e.isSerial || e.isLedWrite || e.isSessionEnd) = [] ∧
      (PN532.polls reads).filter Event.isDelay = List.replicate reads.length (.delay 100) ∧
      (PN532.polls reads).filter Event.isPoll =
        List.replicate reads.length (.readPassiveTargetID 100)) ∧
    (∀ answers : List RC522.CardAnswer,
      (∀ a ∈ answers, a.isNewCardPresent = false ∨ a.readCardSerial = false) →
      serialOutput (RC522.polls answers) = "" ∧
      (RC522.polls answers).filter
        (fun e => e.isSerial || e.isLedWrite || e.isSessionEnd) = [] ∧
      (RC522.polls answers).filter Event.isDelay =
        List.replicate answers.length (.delay 100) ∧
      (RC522.polls answers).filter (fun e => e == .PICC_IsNewCardPresent) =
        List.replicate answers.length .PICC_IsNewCardPresent) := by
  refine ⟨?_, ?_, ?_, ?_, ?_⟩
  · intro r h
    simp [PN532.loop, h]
  · intro a h
    simp [RC522.loop, h]
  · intro a h1 h2
    simp [RC522.loop, h1, h2]
  · intro reads
    induction reads with
    | nil => intro _; exact ⟨rfl, rfl, rfl, rfl⟩
    | cons r rest ih =>
      intro h
      have hr : PN532.loop r = [.readPassiveTargetID 100, .delay 100] := by
        simp [PN532.loop, h r (List.mem_cons_self _ _)]
      obtain ⟨i1, i2, i3, i4⟩ := ih (fun x hx => h x (List.mem_cons_of_mem _ hx))
      rw [PN532_polls_cons, hr, serialOutput_append, i1]
      simp only [List.filter_append, i2, i3, i4]
      exact ⟨rfl, rfl, rfl, rfl⟩
  · intro answers
    induction answers with
    | nil => intro _; exact ⟨rfl, rfl, rfl, rfl⟩
    | cons a rest ih =>
      intro h
      obtain ⟨i1, i2, i3, i4⟩ := ih (fun x hx => h x (List.mem_cons_of_mem _ hx))
      rw [RC522_polls_cons, serialOutput_append, i1]
      simp only [List.filter_append, i2, i3, i4]
      have ha := h a (List.mem_cons_self _ _)
      rcases a with ⟨_ | _, _ | _, u⟩
      · exact ⟨rfl, rfl, rfl, rfl⟩
      · exact ⟨rfl, rfl, rfl, rfl⟩
      · exact ⟨rfl, rfl, rfl, rfl⟩
      · simp at ha

/-- Witness for C7: three polls without a tag in each sketch. -/
theorem loop_without_tag_is_silent_witness :
    (∀ r ∈ [(⟨false, []⟩ : PN532.ReadResult), ⟨false, []⟩, ⟨false, []⟩], r.success = false) ∧
    serialOutput (PN532.polls [⟨false, []⟩, ⟨false, []⟩, ⟨false, []⟩]) = "" ∧
    PN532.loop ⟨false, []⟩ = [.readPassiveTargetID 100, .delay 100] ∧
    RC522.loop ⟨false, false, []⟩ = [.PICC_IsNewCardPresent, .delay 100] ∧
    RC522.loop ⟨true, false, []⟩ =
      [.PICC_IsNewCardPresent, .PICC_ReadCardSerial, .delay 100] ∧
    serialOutput (RC522.polls [⟨false, false, []⟩, ⟨true, false, []⟩, ⟨false, true, []⟩]) =
      "" :=
  ⟨by decide,
    (loop_without_tag_is_silent.2.2.2.1 [⟨false, []⟩, ⟨false, []⟩, ⟨false, []⟩]
      (by decide)).1,
    loop_without_tag_is_silent.1 ⟨false, []⟩ rfl,
    loop_without_tag_is_silent.2.1 ⟨false, false, []⟩ rfl,
    loop_without_tag_is_silent.2.2.1 ⟨true, false, []⟩ rfl rfl,
    (loop_without_tag_is_silent.2.2.2.2
      [⟨false, false, []⟩, ⟨true, false, []⟩, ⟨false, true, []⟩] (by decide)).1⟩

/-- C8: a successful iteration performs, in this order and each once: LED on, the three
serial calls of the tag-event line, in the RC522 sketch `PICC_HaltA` then
`PCD_StopCrypto1`, the delay of 1000 ms, LED off (and, in the PN532 sketch, the closing
delay of 100 ms). The PN532 sketch never makes a session-termination call. -/
theorem loop_success_event_order (u : List Nat) :
    PN532.loop ⟨true, u⟩ =
      [ .readPassiveTargetID 100,
        .digitalWrite LED_PIN .HIGH,
        .print "\x7b\"nfc_uid\":\"", .print (uidToHex u), .println "\"\x7d",
        .delay 1000,
        .digitalWrite LED_PIN .LOW,
        .delay 100 ] ∧
    RC522.loop ⟨true, true, u⟩ =
      [ .PICC_IsNewCardPresent, .PICC_ReadCardSerial,
        .digitalWrite LED_PIN .HIGH,
        .print "\x7b\"nfc_uid\":\"", .print (uidToHex u), .println "\"\x7d",
        .PICC_HaltA, .PCD_StopCrypto1,
        .delay 1000,
        .digitalWrite LED_PIN .LOW ] ∧
    (∀ r : PN532.ReadResult, (PN532.loop r).filter Event.isSessionEnd = []) ∧
    (∀ reads : List PN532.ReadResult, (PN532.polls reads).filter Event.isSessionEnd = []) := by
  refine ⟨rfl, rfl, ?_, ?_⟩
  · intro r
    rcases r with ⟨_ | _, u⟩ <;> rfl
  · intro reads
    induction reads with
    | nil => rfl
    | cons r rest ih =>
      rw [PN532_polls_cons, List.filter_append, ih]
      rcases r with ⟨_ | _, u⟩ <;> rfl

/-- C10: in both sketches an iteration that starts with the LED off ends with the LED
off, whatever the reader answers; a `setup()` that returns leaves the LED off; so the LED
is off after `setup()` followed by any number of iterations; and inside an iteration the
LED is on before an event exactly when that event is a serial write of the tag-event
line, a session-termination call, the 1000 ms delay or the LED-off write. -/
theorem led_off_at_iteration_boundaries :
    (∀ r : PN532.ReadResult, ledAfter .LOW (PN532.loop r) = .LOW) ∧
    (∀ a : RC522.CardAnswer, ledAfter .LOW (RC522.loop a) = .LOW) ∧
    (∀ (versiondata : Nat) (led : Level) (reads : List PN532.ReadResult), versiondata ≠ 0 →
      ledAfter led (PN532.setup versiondata).trace = .LOW ∧
      ledAfter led ((PN532.setup versiondata).trace ++ PN532.polls reads) = .LOW) ∧
    (∀ (version : Nat) (led : Level) (answers : List RC522.CardAnswer),
      version ≠ 0x00 ∧ version ≠ 0xFF →
      ledAfter led (RC522.setup version).trace = .LOW ∧
      ledAfter led ((RC522.setup version).trace ++ RC522.polls answers) = .LOW) ∧
    (∀ (r : PN532.ReadResult) (pre : List Event) (e : Event) (post : List Event),
      PN532.loop r = pre ++ e :: post →
      (ledAfter .LOW pre = .HIGH ↔
        (e.isSerial = true ∨ e = .delay 1000 ∨ e = .digitalWrite LED_PIN .LOW))) ∧
    (∀ (a : RC522.CardAnswer) (pre : List Event) (e : Event) (post : List Event),
      RC522.loop a = pre ++ e :: post →
      (ledAfter .LOW pre = .HIGH ↔
        (e.isSerial = true ∨ e.isSessionEnd = true ∨ e = .delay 1000 ∨
          e = .digitalWrite LED_PIN .LOW))) := by
  refine ⟨PN532_loop_led, RC522_loop_led, ?_, ?_, PN532_led_window, RC522_led_window⟩
  · intro versiondata led reads hv
    have hs : ledAfter led (PN532.setup versiondata).trace = .LOW := by
      rw [PN532_setup_of_ne_zero versiondata hv]; cases led <;> rfl
    refine ⟨hs, ?_⟩
    rw [ledAfter_append, hs]
    exact ledAfter_flatMap PN532.loop PN532_loop_led reads
  · intro version led answers hv
    have hs : ledAfter led (RC522.setup version).trace = .LOW := by
      rw [RC522_setup_of_ne_sentinel version hv]; cases led <;> rfl
    refine ⟨hs, ?_⟩
    rw [ledAfter_append, hs]
    exact ledAfter_flatMap RC522.loop RC522_loop_led answers

/-- Witness for C10: PN532 firmware word 0x32010607 and two polls, the second of which
reads a tag; and the point of that iteration just before its 1000 ms delay. -/
theorem led_off_at_iteration_boundaries_witness :
    (0x32010607 : Nat) ≠ 0 ∧
    ledAfter .HIGH
      ((PN532.setup 0x32010607).trace ++
        PN532.polls [⟨false, []⟩, ⟨true, [0xDE, 0xAD, 0xBE, 0xEF]⟩]) = .LOW ∧
    (ledAfter .LOW
        [.readPassiveTargetID 100, .digitalWrite LED_PIN .HIGH,
          .print "\x7b\"nfc_uid\":\"", .print "DEADBEEF", .println "\"\x7d"] = .HIGH ↔
      ((Event.delay 1000).isSerial = true ∨ Event.delay 1000 = .delay 1000 ∨
        Event.delay 1000 = .digitalWrite LED_PIN .LOW)) :=
  ⟨by decide,
    (led_off_at_iteration_boundaries.2.2.1 0x32010607 .HIGH
      [⟨false, []⟩, ⟨true, [0xDE, 0xAD, 0xBE, 0xEF]⟩] (by decide)).2,
    led_off_at_iteration_boundaries.2.2.2.2.1 ⟨true, [0xDE, 0xAD, 0xBE, 0xEF]⟩
      [.readPassiveTargetID 100, .digitalWrite LED_PIN .HIGH,
        .print "\x7b\"nfc_uid\":\"", .print "DEADBEEF", .println "\"\x7d"]
      (.delay 1000)
      [.digitalWrite LED_PIN .LOW, .delay 100]
      (by decide)⟩

/-! ## Losslessness of the formatter within the UID array -/

/-- C9, refuted as stated: the PN532 sketch formats out of its 7-element array `uid`, so
for `uidLength = 8` the loop reads `uid[7]`, past the end of the array, and neither the
formatter nor the iteration has a defined result; hence it is not the case that for every
length up to 255 the formatter yields a string that parses back to that many bytes. -/
theorem PN532_format_reads_past_array :
    [0x04, 0xA1, 0x0B, 0xFF, 0x00, 0x7C, 0x10].length = 7 ∧
    uidToHexAt [0x04, 0xA1, 0x0B, 0xFF, 0x00, 0x7C, 0x10] 7 = some "04A10BFF007C10" ∧
    uidToHexAt [0x04, 0xA1, 0x0B, 0xFF, 0x00, 0x7C, 0x10] 8 = none ∧
    PN532.loopOnArray true [0x04, 0xA1, 0x0B, 0xFF, 0x00, 0x7C, 0x10] 8 = none ∧
    ¬ (∀ (uid : List Nat) (uidLength : Nat),
        uid.length = 7 → (∀ b ∈ uid, b < 256) → uidLength ≤ 255 →
        ∃ (uidStr : String) (bytes : List Nat),
          uidToHexAt uid uidLength = some uidStr ∧ bytes.length = uidLength ∧
          parseHex uidStr.data = some bytes) := by
  refine ⟨by decide, by decide, by decide, by decide, ?_⟩
  intro h
  obtain ⟨uidStr, bytes, hs, _, _⟩ :=
    h [0x04, 0xA1, 0x0B, 0xFF, 0x00, 0x7C, 0x10] 8 (by decide) (by decide) (by decide)
  have hnone : uidToHexAt [0x04, 0xA1, 0x0B, 0xFF, 0x00, 0x7C, 0x10] 8 = none := by decide
  rw [hnone] at hs
  exact Option.noConfusion hs

/-- C9, amended: the formatter is lossless for every length that fits the UID array, 0 to
7 in the PN532 sketch (`uint8_t uid[7]`) and 0 to 10 in the RC522 sketch
(`byte uidByte[10]`): it yields a string, reading that string two hex digits at a time
gives back the bytes `uid[0], ..., uid[uidLength - 1]`, the iteration writes exactly the
tag-event line with that string, and two successful iterations that write the same text
to the serial port have read UIDs of the same length with the same bytes. -/
theorem uid_format_lossless_within_array :
    (∀ (uid : List Nat) (uidLength : Nat),
      uid.length = 7 → (∀ b ∈ uid, b < 256) → uidLength ≤ 7 →
      (∃ uidStr : String,
        uidToHexAt uid uidLength = some uidStr ∧
        uidStr.length = 2 * uidLength ∧
        parseHex uidStr.data = some (uid.take uidLength) ∧
        (PN532.loopOnArray true uid uidLength).map serialOutput =
          some ("\x7b\"nfc_uid\":\"" ++ uidStr ++ "\"\x7d" ++ "\r\n")) ∧
      (∀ (uid2 : List Nat) (uidLength2 : Nat),
        uid2.length = 7 → (∀ b ∈ uid2, b < 256) → uidLength2 ≤ 7 →
        (PN532.loopOnArray true uid uidLength).map serialOutput =
          (PN532.loopOnArray true uid2 uidLength2).map serialOutput →
        uidLength = uidLength2 ∧ uid.take uidLength = uid2.take uidLength2)) ∧
    (∀ (uidByte : List Nat) (size : Nat),
      uidByte.length = 10 → (∀ b ∈ uidByte, b < 256) → size ≤ 10 →
      (∃ uidStr : String,
        uidToHexAt uidByte size = some uidStr ∧
        uidStr.length = 2 * size ∧
        parseHex uidStr.data = some (uidByte.take size) ∧
        (RC522.loopOnArray true true uidByte size).map serialOutput =
          some ("\x7b\"nfc_uid\":\"" ++ uidStr ++ "\"\x7d" ++ "\r\n")) ∧
      (∀ (uidByte2 : List Nat) (size2 : Nat),
        uidByte2.length = 10 → (∀ b ∈ uidByte2, b < 256) → size2 ≤ 10 →
        (RC522.loopOnArray true true uidByte size).map serialOutput =
          (RC522.loopOnArray true true uidByte2 size2).map serialOutput →
        size = size2 ∧ uidByte.take size = uidByte2.take size2)) := by
  constructor
  · intro uid n harr hbyte hfit
    have hn : n ≤ uid.length := by omega
    have hb := take_byte_bound uid n hbyte
    refine ⟨⟨uidToHex (uid.take n), uidToHexAt_of_le uid n hn, ?_, ?_, ?_⟩, ?_⟩
    · rw [String.length, uidToHex_data _ hb, flatMap_byteHex_length, List.length_take]
      omega
    · rw [uidToHex_data _ hb]; exact parseHex_flatMap _ hb
    · rw [PN532_loopOnArray_of_le uid n hn, Option.map_some', serialOutput_PN532_loop]
    · intro uid2 m harr2 hbyte2 hfit2 h
      have hm : m ≤ uid2.length := by omega
      rw [PN532_loopOnArray_of_le uid n hn, PN532_loopOnArray_of_le uid2 m hm,
        Option.map_some', Option.map_some', serialOutput_PN532_loop,
        serialOutput_PN532_loop] at h
      have ht := tagEventLine_injective _ _ hb (take_byte_bound uid2 m hbyte2)
        (Option.some.inj h)
      exact ⟨take_eq_take_of_le uid uid2 n m hn hm ht, ht⟩
  · intro uid n harr hbyte hfit
    have hn : n ≤ uid.length := by omega
    have hb := take_byte_bound uid n hbyte
    refine ⟨⟨uidToHex (uid.take n), uidToHexAt_of_le uid n hn, ?_, ?_, ?_⟩, ?_⟩
    · rw [String.length, uidToHex_data _ hb, flatMap_byteHex_length, List.length_take]
      omega
    · rw [uidToHex_data _ hb]; exact parseHex_flatMap _ hb
    · rw [RC522_loopOnArray_of_le uid n hn, Option.map_some', serialOutput_RC522_loop]
    · intro uid2 m harr2 hbyte2 hfit2 h
      have hm : m ≤ uid2.length := by omega
      rw [RC522_loopOnArray_of_le uid n hn, RC522_loopOnArray_of_le uid2 m hm,
        Option.map_some', Option.map_some', serialOutput_RC522_loop,
        serialOutput_RC522_loop] at h
      have ht := tagEventLine_injective _ _ hb (take_byte_bound uid2 m hbyte2)
        (Option.some.inj h)
      exact ⟨take_eq_take_of_le uid uid2 n m hn hm ht, ht⟩

/-- Witness for the amended C9: the PN532 array holding the 4-byte UID `00 0A FF 10`
(the rest of the array is zero), and the RC522 array holding a 10-byte UID. -/
theorem uid_format_lossless_within_array_witness :
    ([0x00, 0x0A, 0xFF, 0x10, 0, 0, 0].length = 7 ∧
      (∀ b ∈ [0x00, 0x0A, 0xFF, 0x10, 0, 0, 0], b < 256) ∧ 4 ≤ 7) ∧
    uidToHexAt [0x00, 0x0A, 0xFF, 0x10, 0, 0, 0] 4 = some "000AFF10" ∧
    (∃ uidStr : String,
      uidToHexAt [0x00, 0x0A, 0xFF, 0x10, 0, 0, 0] 4 = some uidStr ∧
      uidStr.length = 2 * 4 ∧
      parseHex uidStr.data = some ([0x00, 0x0A, 0xFF, 0x10, 0, 0, 0].take 4) ∧
      (PN532.loopOnArray true [0x00, 0x0A, 0xFF, 0x10, 0, 0, 0] 4).map serialOutput =
        some ("\x7b\"nfc_uid\":\"" ++ uidStr ++ "\"\x7d" ++ "\r\n")) ∧
    (∃ uidStr : String,
      uidToHexAt [0x04, 0xA1, 0x0B, 0xFF, 0x00, 0x7C, 0x10, 0x01, 0x02, 0x03] 10 =
        some uidStr ∧
      uidStr.length = 2 * 10 ∧
      parseHex uidStr.data =
        some ([0x04, 0xA1, 0x0B, 0xFF, 0x00, 0x7C, 0x10, 0x01, 0x02, 0x03].take 10) ∧
      (RC522.loopOnArray true true
          [0x04, 0xA1, 0x0B, 0xFF, 0x00, 0x7C, 0x10, 0x01, 0x02, 0x03] 10).map serialOutput =
        some ("\x7b\"nfc_uid\":\"" ++ uidStr ++ "\"\x7d" ++ "\r\n")) :=
  ⟨by decide, by decide,
    (uid_format_lossless_within_array.1 [0x00, 0x0A, 0xFF, 0x10, 0, 0, 0] 4
      (by decide) (by decide) (by decide)).1,
    (uid_format_lossless_within_array.2
      [0x04, 0xA1, 0x0B, 0xFF, 0x00, 0x7C, 0x10, 0x01, 0x02, 0x03] 10
      (by decide) (by decide) (by decide)).1⟩

end NfcReader
